import Mathlib

/-!
Verification of the Neurivox automation core: the debug event bus
(`utils/eventEmitter.ts`) and the automation executor
(`components/AutomationActions.tsx` with its `geminiService.ts`
capability calls), shallowly embedded in Lean.

JavaScript exceptions are modelled with `Except String`; side effects
(handler invocations, console output, emitted log entries, capability
calls) are threaded through explicit world states.  Wall-clock data of
the source (log `id`, `timestamp`, latency figures inside messages) is
omitted from the embedding; everything else follows the source line by
line.
-/

namespace Neurivox

/-! ## Debug event bus (`utils/eventEmitter.ts`) -/

/-- The `EventEmitter` class field `listeners: { [eventName]: Function[] }`.
Handlers (JS `Function` values, compared by identity in `off`) are
modelled as `Nat` identities; the object is an association list from
event name to the handler array. -/
structure EventEmitter where
  listeners : List (String × List Nat)

/-- Reading `this.listeners[eventName]`: `none` models JS `undefined`. -/
def lookupListeners (em : EventEmitter) (name : String) : Option (List Nat) :=
  (em.listeners.find? (fun p => p.1 == name)).map (fun p => p.2)

/-- Writing `this.listeners[eventName] = ls` on the association list. -/
def setEntry : List (String × List Nat) → String → List Nat → List (String × List Nat)
  | [], name, ls => [(name, ls)]
  | p :: rest, name, ls =>
    if p.1 == name then (name, ls) :: rest else p :: setEntry rest name ls

/-- `this.listeners[eventName] = ls` at the emitter level. -/
def setListeners (em : EventEmitter) (name : String) (ls : List Nat) : EventEmitter :=
  ⟨setEntry em.listeners name ls⟩

/-- `on(eventName, listener)` (the name `on` is a Lean keyword, hence
`onEvent`): create the array if absent, then push. -/
def onEvent (em : EventEmitter) (name : String) (h : Nat) : EventEmitter :=
  setListeners em name ((lookupListeners em name).getD [] ++ [h])

/-- `off(eventName, listener)`: early return when no array exists,
otherwise `filter((l) => l !== listener)`. -/
def offEvent (em : EventEmitter) (name : String) (h : Nat) : EventEmitter :=
  match lookupListeners em name with
  | Option.none => em
  | Option.some ls => setListeners em name (ls.filter (fun l => l != h))

/-- The unsubscribe closure returned by `on`: `() => this.off(eventName, listener)`. -/
def unsubscribe (em : EventEmitter) (name : String) (h : Nat) : EventEmitter :=
  offEvent em name h

/-- Observable bus effects: the sequence of handler invocations (handler
identity paired with the published entry) and the `console.error` side
channel. -/
structure BusWorld (α : Type) where
  invocations : List (Nat × α)
  console : List String

/-- The `console.error` line produced inside `emit`'s catch block:
`console.error` is given the format string and the caught error as two
arguments, rendered here as one space-joined line. -/
def listenerErrMsg (name : String) (errText : String) : String :=
  "Error in event listener for " ++ name ++ ": " ++ errText

/-- One loop iteration of `emit`'s `forEach`: `try { listener(...args) }
catch (e) { console.error(...) }`.  The handler body `beh h e` may throw;
the catch swallows the exception, so the iteration itself returns
normally. -/
def invokeListener (beh : Nat → α → Except String Unit) (name : String) (e : α)
    (h : Nat) (w : BusWorld α) : BusWorld α × Except String Unit :=
  let w1 : BusWorld α := ⟨w.invocations ++ [(h, e)], w.console⟩
  match beh h e with
  | Except.ok _ => (w1, Except.ok ())
  | Except.error m => (⟨w1.invocations, w1.console ++ [listenerErrMsg name m]⟩, Except.ok ())

/-- The `forEach` loop of `emit`; an uncaught exception in an iteration
would abort the loop and propagate. -/
def emitGo (beh : Nat → α → Except String Unit) (name : String) (e : α) :
    List Nat → BusWorld α → BusWorld α × Except String Unit
  | [], w => (w, Except.ok ())
  | h :: t, w =>
    match invokeListener beh name e h w with
    | (w1, Except.ok _) => emitGo beh name e t w1
    | (w1, Except.error msg) => (w1, Except.error msg)

/-- `emit(eventName, ...args)`: early return when no listener array
exists, otherwise the guarded `forEach` over the registered handlers. -/
def emit (em : EventEmitter) (beh : Nat → α → Except String Unit)
    (name : String) (e : α) (w : BusWorld α) : BusWorld α × Except String Unit :=
  match lookupListeners em name with
  | Option.none => (w, Except.ok ())
  | Option.some hs => emitGo beh name e hs w

/-- The handlers `emit` will run for `name`, in registration order. -/
def listenersOf (em : EventEmitter) (name : String) : List Nat :=
  (lookupListeners em name).getD []

/-! ## Shared data contracts (`types.ts`, `constants.ts`) -/

/-- The `DebugLogLevel` enum of `types.ts`. -/
inductive DebugLogLevel where
  | info
  | warning
  | error
  | api_call
  | api_response
  | api_key_missing
  | model_selection
  | context_memory
  | automation_step
  | ui_event
deriving DecidableEq, Repr

/-- The only `options` key the executor reads (`step.options?.emojiMode`). -/
structure StepOptions where
  emojiMode : Bool
deriving DecidableEq, Repr

/-- `AutomationStep` of `types.ts`; the unused `inputKey`/`outputKey`
slots are not read by the executor and are omitted.  `options : Option _`
models a possibly `undefined` options object. -/
structure AutomationStep where
  actionId : String
  options : Option StepOptions
deriving DecidableEq, Repr

/-- One entry of a workspace's `availableActions` in `constants.ts`, with
the fields the executor reads (`id`, `name`, `description`; the `icon`
and `component` fields are UI-only). -/
structure AIAction where
  id : String
  name : String
  description : String
deriving DecidableEq, Repr

/-- The `details` payloads attached to the log entries produced along an
automation run. -/
inductive LogDetails where
  | runStart (initialInput : String) (steps : List AutomationStep)
  | stepStart (actionId : String) (input : String) (options : Option StepOptions)
  | stepDone (outputPreview : String)
  | runSuccess (finalOutput : String)
  | runFailure (errText : String)
  | apiCall (prompt : String) (systemInstruction : String)
  | apiResponse (response : String)
  | apiError (errText : String)
  | noDetails
deriving DecidableEq, Repr

/-- `DebugLogEntry` of `types.ts`, without the wall-clock `id` and
`timestamp` fields. -/
structure DebugLogEntry where
  level : DebugLogLevel
  message : String
  details : LogDetails
deriving DecidableEq, Repr

/-- `DEFAULT_AI_MODEL` of `constants.ts`. -/
def DEFAULT_AI_MODEL : String := "gemini-2.5-flash"

/-- The model name hard-coded in the vision-integration branch. -/
def VISION_MODEL : String := "gemini-2.5-flash-image"

/-! ## Automation executor (`components/AutomationActions.tsx`) -/

/-- One recorded capability invocation: the arguments handed to
`generateTextContent` or to `generateImages` at the moment of the
underlying `await`. -/
inductive CapCall where
  | text (model : String) (prompt : String) (systemInstruction : String)
  | vision (model : String) (prompt : String) (mimeType : String) (base64Data : String)
deriving DecidableEq, Repr

/-- Observable executor effects: emitted log entries (in emission order)
and capability invocations (in invocation order). -/
structure RunWorld where
  logs : List DebugLogEntry
  calls : List CapCall
deriving DecidableEq, Repr

def pushLog (w : RunWorld) (e : DebugLogEntry) : RunWorld :=
  ⟨w.logs ++ [e], w.calls⟩

def pushCall (w : RunWorld) (c : CapCall) : RunWorld :=
  ⟨w.logs, w.calls ++ [c]⟩

/-- The executor's environment: the action registry
(`WORKSPACES.flatMap(ws => ws.availableActions)`), the behaviour of the
two underlying hosted-model calls, and the automation name.  `apiText`
models `ai.models.generateContent` inside `generateTextContent`
(arguments: model, prompt, systemInstruction); `apiVision` models the
`gemini-2.5-flash-image` call inside `generateImages` (an `ok none`
result models a response without a `text` field). -/
structure RunEnv where
  registry : List AIAction
  apiText : String → String → String → Except String String
  apiVision : String → String → String → String → Except String (Option String)
  automationName : String

/-- JS `String.prototype.trim()`: drop leading and trailing whitespace.
Modelled structurally over the character list because Lean's own
`String.trim` is defined by well-founded recursion and is opaque to
kernel evaluation. -/
def jsTrim (s : String) : String :=
  String.mk
    (((s.data.dropWhile Char.isWhitespace).reverse.dropWhile Char.isWhitespace).reverse)

/-- `${automationName || 'Untitled Automation'}`. -/
def displayName (name : String) : String :=
  if name == "" then "Untitled Automation" else name

/-- A single quote character, used inside source error messages. -/
def sq : String := "\x27"

/-- `Invalid action ID: ${step.actionId} at step ${i + 1}`. -/
def invalidActionMsg (id : String) (i : Nat) : String :=
  "Invalid action ID: " ++ id ++ " at step " ++ toString (i + 1)

/-- The vision-integration input-kind failure message. -/
def visionMismatchMsg : String :=
  "Vision Integration requires an image input (base64 data URL). Current input is not an image."

/-- `Text-based action '${action.name}' cannot process image input from previous step.` -/
def textMismatchMsg (name : String) : String :=
  "Text-based action " ++ sq ++ name ++ sq ++ " cannot process image input from previous step."

/-- The emoji-mode prompt template of the social-commenter branch. -/
def emojiPrompt (input : String) : String :=
  "Given the following social media post, generate a short, polite, context-relevant, and concise comment using ONLY emojis (1-3 emojis max).\n            Post: \"" ++ input ++ "\""

/-- The default prompt template of the social-commenter branch. -/
def politePrompt (input : String) : String :=
  "Given the following social media post, generate a short, polite, coherent, and concise comment (max 20 words).\n            Post: \"" ++ input ++ "\""

/-- The `api_call` log entry of `generateTextContent` (the latency
parenthetical of the source message, wall-clock data, is omitted). -/
def apiCallEntry (model prompt sysInstr : String) : DebugLogEntry :=
  ⟨DebugLogLevel.api_call, "Calling generateContent for model: " ++ model,
   LogDetails.apiCall prompt sysInstr⟩

/-- The `api_response` log entry of `generateTextContent`. -/
def apiRespEntry (text : String) : DebugLogEntry :=
  ⟨DebugLogLevel.api_response, "generateContent succeeded", LogDetails.apiResponse text⟩

/-- The `error` log entry of `generateTextContent`. -/
def apiErrEntry (m : String) : DebugLogEntry :=
  ⟨DebugLogLevel.error, "generateContent failed", LogDetails.apiError m⟩

/-- `geminiService.generateTextContent`: logs the `api_call` entry,
performs the underlying call, then either logs the `api_response` entry
and returns the text, or logs the `error` entry and rethrows the failure
wrapped as `Failed to generate content: ...`. -/
def generateTextContent (env : RunEnv) (model prompt sysInstr : String)
    (w : RunWorld) : RunWorld × Except String String :=
  let w1 := pushLog w (apiCallEntry model prompt sysInstr)
  let w2 := pushCall w1 (CapCall.text model prompt sysInstr)
  match env.apiText model prompt sysInstr with
  | Except.ok text => (pushLog w2 (apiRespEntry text), Except.ok text)
  | Except.error m =>
    (pushLog w2 (apiErrEntry m), Except.error ("Failed to generate content: " ++ m))

/-- `geminiService.generateImages` on the `gemini-2.5-flash-image` path
with an `imagePart` (the only path the executor uses): performs the
underlying call with the fixed describe prompt; a thrown failure is
rethrown wrapped as `Failed to generate image: ...`.  This function logs
nothing through the executor's sink. -/
def generateImagesVision (env : RunEnv) (mimeType base64Data : String)
    (w : RunWorld) : RunWorld × Except String (Option String) :=
  let w1 := pushCall w (CapCall.vision VISION_MODEL "Describe this image in detail." mimeType base64Data)
  match env.apiVision VISION_MODEL "Describe this image in detail." mimeType base64Data with
  | Except.ok res => (w1, Except.ok res)
  | Except.error m => (w1, Except.error ("Failed to generate image: " ++ m))

/-- The log entry at step start (`Executing step ${i + 1}: ${action.name}`,
level `INFO`). -/
def stepStartEntry (i : Nat) (a : AIAction) (input : String)
    (opts : Option StepOptions) : DebugLogEntry :=
  ⟨DebugLogLevel.info, "Executing step " ++ toString (i + 1) ++ ": " ++ a.name,
   LogDetails.stepStart a.id input opts⟩

/-- The step-output preview recorded at step completion:
`stepOutput.substring(0, 100) + (stepOutput.length > 100 ? '...' : '')`. -/
def stepPreview (s : String) : String :=
  s.take 100 ++ (if s.length > 100 then "..." else "")

/-- The log entry at step completion (`Step ${i + 1} completed.`, level
`INFO`, with the truncated output preview as details). -/
def stepDoneEntry (i : Nat) (out : String) : DebugLogEntry :=
  ⟨DebugLogLevel.info, "Step " ++ toString (i + 1) ++ " completed.",
   LogDetails.stepDone (stepPreview out)⟩

/-- The image-data marker used for payload-kind sniffing. -/
def imageMarker : String := "data:image/"

/-- `currentInput.split(';')[0].split(':')[1]` — the mime type pulled
out of a data URL. -/
def visionMime (cur : String) : String :=
  (((cur.splitOn ";").headD "").splitOn ":").getD 1 ""

/-- `currentInput.split(',')[1]` — the base64 payload of a data URL. -/
def visionB64 (cur : String) : String :=
  (cur.splitOn ",").getD 1 ""

/-- The prompt the social-commenter branch builds from
`step.options?.emojiMode || false` and the current payload. -/
def socialPrompt (step : AutomationStep) (cur : String) : String :=
  if (step.options.map (fun o => o.emojiMode)).getD false
    then emojiPrompt cur else politePrompt cur

/-- The body of one loop iteration between the step-start and
step-completion logs: branch on the action id, run the capability, and
produce `stepOutput` (every branch ends with `isInputImage = false`,
restated by the caller). -/
def execBody (env : RunEnv) (step : AutomationStep) (action : AIAction)
    (currentInput : String) (isInputImage : Bool) (w : RunWorld) :
    RunWorld × Except String String :=
  if action.id == "vision-integration" then
    if ¬ (currentInput.startsWith imageMarker) then
      (w, Except.error visionMismatchMsg)
    else
      match generateImagesVision env (visionMime currentInput) (visionB64 currentInput) w with
      | (w1, Except.error m) => (w1, Except.error m)
      | (w1, Except.ok Option.none) =>
        (w1, Except.error "Vision integration did not return expected text output.")
      | (w1, Except.ok (Option.some text)) => (w1, Except.ok (jsTrim text))
  else if action.id == "social-commenter" then
    match generateTextContent env DEFAULT_AI_MODEL (socialPrompt step currentInput)
        action.description w with
    | (w1, Except.error m) => (w1, Except.error m)
    | (w1, Except.ok text) => (w1, Except.ok (jsTrim text))
  else
    if isInputImage then
      (w, Except.error (textMismatchMsg action.name))
    else
      match generateTextContent env DEFAULT_AI_MODEL currentInput action.description w with
      | (w1, Except.error m) => (w1, Except.error m)
      | (w1, Except.ok text) => (w1, Except.ok (jsTrim text))

/-- One full loop iteration of `runAutomation`: resolve the action id,
log step start, run the branch body, log step completion, and thread the
payload (`currentInput = stepOutput`) and its recomputed kind (every
branch sets `isInputImage = false`, then the marker sniff may set it back
to `true`). -/
def execStep (env : RunEnv) (i : Nat) (step : AutomationStep)
    (currentInput : String) (isInputImage : Bool) (w : RunWorld) :
    RunWorld × Except String (String × Bool) :=
  match env.registry.find? (fun a => a.id == step.actionId) with
  | Option.none => (w, Except.error (invalidActionMsg step.actionId i))
  | Option.some action =>
    let w1 := pushLog w (stepStartEntry i action currentInput step.options)
    match execBody env step action currentInput isInputImage w1 with
    | (w2, Except.error m) => (w2, Except.error m)
    | (w2, Except.ok stepOutput) =>
      let w3 := pushLog w2 (stepDoneEntry i stepOutput)
      (w3, Except.ok (stepOutput, stepOutput.startsWith imageMarker))

/-- The `for` loop of `runAutomation`, threading the payload and its
kind; a thrown error aborts the remaining iterations. -/
def runSteps (env : RunEnv) :
    List AutomationStep → Nat → String → Bool → RunWorld →
    RunWorld × Except String (String × Bool)
  | [], _, currentInput, isInputImage, w => (w, Except.ok (currentInput, isInputImage))
  | step :: rest, i, currentInput, isInputImage, w =>
    match execStep env i step currentInput isInputImage w with
    | (w1, Except.error m) => (w1, Except.error m)
    | (w1, Except.ok (out, img)) => runSteps env rest (i + 1) out img w1

/-- Outcome of `runAutomation` as observed through the component state:
`completed` (output state set, success log), `apiKeyMissing` (early
return, no exception), or `failed` carrying the thrown error's message. -/
inductive RunOutcome where
  | completed (finalOutput : String)
  | apiKeyMissing
  | failed (errMsg : String)
deriving DecidableEq, Repr

/-- The run-start log entry. -/
def runStartEntry (env : RunEnv) (initialInput : String)
    (steps : List AutomationStep) : DebugLogEntry :=
  ⟨DebugLogLevel.info, "Starting automation: " ++ displayName env.automationName,
   LogDetails.runStart initialInput steps⟩

/-- The terminal success log entry. -/
def runSuccessEntry (env : RunEnv) (finalOutput : String) : DebugLogEntry :=
  ⟨DebugLogLevel.info,
   "Automation \"" ++ displayName env.automationName ++ "\" finished successfully.",
   LogDetails.runSuccess finalOutput⟩

/-- The terminal failure log entry emitted by the outer catch. -/
def runFailedEntry (env : RunEnv) (errText : String) : DebugLogEntry :=
  ⟨DebugLogLevel.error,
   "Automation \"" ++ displayName env.automationName ++ "\" failed.",
   LogDetails.runFailure errText⟩

/-- `runAutomation`: the run-start log, the API-key guard (an early
`return`, not an exception), the step loop starting from the initial
input with `isInputImage = false`, and the terminal success log or the
outer catch's failure log. -/
def runAutomation (env : RunEnv) (apiKeyPresent : Bool) (initialInput : String)
    (steps : List AutomationStep) (w : RunWorld) : RunWorld × RunOutcome :=
  let w1 := pushLog w (runStartEntry env initialInput steps)
  if ¬ apiKeyPresent then
    (pushLog w1 ⟨DebugLogLevel.error, "Automation failed: API Key missing.",
       LogDetails.noDetails⟩, RunOutcome.apiKeyMissing)
  else
    match runSteps env steps 0 initialInput false w1 with
    | (w2, Except.ok (finalOut, _)) =>
      (pushLog w2 (runSuccessEntry env finalOut), RunOutcome.completed finalOut)
    | (w2, Except.error m) =>
      (pushLog w2 (runFailedEntry env m), RunOutcome.failed m)

/-- Outcome of `handleRunAutomation`: either one of the two `setError`
validation messages (with `runAutomation` never started), or the outcome
of the started run. -/
inductive HandleOutcome where
  | validationError (msg : String)
  | ran (r : RunOutcome)
deriving DecidableEq, Repr

/-- The `EmptyPipelineError` validation message of `handleRunAutomation`. -/
def emptyPipelineMsg : String := "Please add at least one step to the automation."

/-- The `MissingInputError` validation message of `handleRunAutomation`. -/
def missingInputMsg : String := "Please provide initial input for the automation."

/-- `handleRunAutomation`: the two caller-input validations (empty step
list first, then blank initial input via `!initialAutomationInput.trim()`),
then the run itself. -/
def handleRunAutomation (env : RunEnv) (apiKeyPresent : Bool)
    (initialInput : String) (steps : List AutomationStep) (w : RunWorld) :
    RunWorld × HandleOutcome :=
  if steps.length == 0 then
    (w, HandleOutcome.validationError emptyPipelineMsg)
  else if jsTrim initialInput == "" then
    (w, HandleOutcome.validationError missingInputMsg)
  else
    match runAutomation env apiKeyPresent initialInput steps w with
    | (w1, r) => (w1, HandleOutcome.ran r)

/-! ## Concrete scenarios used by witnesses and counterexamples -/

/-- A generic text action at registry id `act-a`. -/
def actA : AIAction := ⟨"act-a", "Action A", "desc A"⟩

/-- A generic text action at registry id `act-b`. -/
def actB : AIAction := ⟨"act-b", "Action B", "desc B"⟩

/-- The vision capability entry (`vision-integration`). -/
def visionAct : AIAction := ⟨"vision-integration", "Vision Integration", "desc V"⟩

def stepA : AutomationStep := ⟨"act-a", Option.none⟩

def stepB : AutomationStep := ⟨"act-b", Option.none⟩

def stepV : AutomationStep := ⟨"vision-integration", Option.none⟩

/-- A vision behaviour that is never reached in the scenarios below. -/
def apiVisionUnused : String → String → String → String → Except String (Option String) :=
  fun _ _ _ _ => Except.error "unused"

/-- Scenario: the only step's capability call rejects with `timeout`. -/
def envTimeoutAt0 : RunEnv :=
  ⟨[actA], fun _ _ _ => Except.error "timeout", apiVisionUnused, "demo"⟩

/-- Scenario: step 1 succeeds with output `mid`; step 2's capability
call rejects with `timeout`. -/
def envTimeoutAt1 : RunEnv :=
  ⟨[actA, actB],
   fun _ p _ => if p == "hi" then Except.ok "mid" else Except.error "timeout",
   apiVisionUnused, "demo"⟩

/-- Scenario: both capability calls succeed with output `out`. -/
def envOk : RunEnv :=
  ⟨[actA, actB], fun _ _ _ => Except.ok "out", apiVisionUnused, "demo"⟩

/-- Scenario: both capability calls succeed with the untrimmed output
`" x "`. -/
def envPad : RunEnv :=
  ⟨[actA, actB], fun _ _ _ => Except.ok " x ", apiVisionUnused, "demo"⟩

/-- Scenario: a vision step preceded (or not) by a generic step whose
capability yields the non-image text `hello`. -/
def envVision : RunEnv :=
  ⟨[actA, visionAct], fun _ _ _ => Except.ok "hello", apiVisionUnused, "demo"⟩

/-! ## Event-bus lemmas -/

/-- The console lines the catch block of `emit` produces for one
published entry, given the handler behaviour. -/
def caughtLines (beh : Nat → α → Except String Unit) (name : String) (e : α)
    (hs : List Nat) : List String :=
  hs.filterMap (fun h =>
    match beh h e with
    | Except.error m => Option.some (listenerErrMsg name m)
    | Except.ok _ => Option.none)

theorem emitGo_spec (beh : Nat → α → Except String Unit) (name : String) (e : α) :
    ∀ (hs : List Nat) (w : BusWorld α),
      emitGo beh name e hs w =
        (⟨w.invocations ++ hs.map (fun h => (h, e)),
          w.console ++ caughtLines beh name e hs⟩, Except.ok ()) := by
  intro hs
  induction hs with
  | nil => intro w; simp [emitGo, caughtLines]
  | cons h t ih =>
    intro w
    cases hbe : beh h e with
    | ok u => simp [emitGo, invokeListener, hbe, ih, caughtLines]
    | error m => simp [emitGo, invokeListener, hbe, ih, caughtLines]

theorem lookupListeners_set_self (em : EventEmitter) (name : String) (ls : List Nat) :
    lookupListeners (setListeners em name ls) name = Option.some ls := by
  obtain ⟨l⟩ := em
  simp only [lookupListeners, setListeners]
  induction l with
  | nil => simp [setEntry]
  | cons p rest ih =>
    by_cases hp : p.1 = name
    · simp [setEntry, hp, List.find?]
    · have hb : (p.1 == name) = false := by simp [hp]
      simp [setEntry, hb, List.find?, ih]

theorem lookupListeners_set_ne (em : EventEmitter) (name m : String) (ls : List Nat)
    (hne : m ≠ name) :
    lookupListeners (setListeners em name ls) m = lookupListeners em m := by
  obtain ⟨l⟩ := em
  have hnm : (name == m) = false := by
    simp only [beq_eq_false_iff_ne, ne_eq]
    exact fun hc => hne hc.symm
  simp only [lookupListeners, setListeners]
  induction l with
  | nil => simp [setEntry, List.find?, hnm]
  | cons p rest ih =>
    by_cases hp : p.1 = name
    · have hpm : (p.1 == m) = false := by
        simp only [beq_eq_false_iff_ne, ne_eq, hp]
        exact fun hc => hne hc.symm
      have hpb : (p.1 == name) = true := by simp [hp]
      simp [setEntry, hpb, List.find?, hpm, hnm]
    · have hb : (p.1 == name) = false := by simp [hp]
      by_cases hq : p.1 = m
      · have hqb : (p.1 == m) = true := by simp [hq]
        simp [setEntry, hb, List.find?, hqb]
      · have hqb : (p.1 == m) = false := by simp [hq]
        simp only [setEntry, hb, Bool.false_eq_true, if_false, List.find?, hqb]
        exact ih

theorem setEntry_setEntry (l : List (String × List Nat)) (name : String)
    (a b : List Nat) : setEntry (setEntry l name a) name b = setEntry l name b := by
  induction l with
  | nil => simp [setEntry]
  | cons p rest ih =>
    by_cases hp : p.1 = name
    · simp [setEntry, hp]
    · have hb : (p.1 == name) = false := by simp [hp]
      simp [setEntry, hb, ih]

theorem filter_bne_idem (h : Nat) (l : List Nat) :
    (l.filter (fun x => x != h)).filter (fun x => x != h) = l.filter (fun x => x != h) := by
  induction l with
  | nil => rfl
  | cons a t ih =>
    by_cases ha : a = h
    · simp [List.filter, ha, ih]
    · have hb : (a != h) = true := by simp [ha]
      simp [List.filter, hb, ih]

/-- C1: `emit` invokes every currently registered handler for the event
name in registration order (the invocation trace extends by exactly the
registered list, in order, even when handlers throw), each thrown handler
exception is caught and logged to the console side channel, and the
publish call itself always returns normally — for every event name,
every registry, and every handler behaviour, including handlers that
always throw. -/
theorem publish_isolates_handlers (em : EventEmitter)
    (beh : Nat → α → Except String Unit) (name : String) (e : α) (w : BusWorld α) :
    emit em beh name e w =
      (⟨w.invocations ++ (listenersOf em name).map (fun h => (h, e)),
        w.console ++ caughtLines beh name e (listenersOf em name)⟩,
       Except.ok ()) := by
  cases hl : lookupListeners em name with
  | none => simp [emit, hl, listenersOf, caughtLines]
  | some hs => simp [emit, hl, listenersOf, emitGo_spec]

/-- C9 (amended): `on` appends the handler to the event's registration
list and returns an unsubscribe closure; invoking it removes **every**
registration of that handler for that event (hence exactly the one
registration whenever the handler was registered once), is idempotent
(a second invocation is a no-op), and leaves every other event name's
registrations untouched. -/
theorem subscribe_unsubscribe_registry (em : EventEmitter) (name m : String) (h : Nat) :
    lookupListeners (onEvent em name h) name
        = Option.some (listenersOf em name ++ [h]) ∧
    lookupListeners (unsubscribe em name h) name
        = (lookupListeners em name).map (fun ls => ls.filter (fun l => l != h)) ∧
    unsubscribe (unsubscribe em name h) name h = unsubscribe em name h ∧
    (m ≠ name →
      lookupListeners (unsubscribe em name h) m = lookupListeners em m) := by
  refine ⟨?_, ?_, ?_, ?_⟩
  · simpa [onEvent, listenersOf] using lookupListeners_set_self em name _
  · cases hl : lookupListeners em name with
    | none => simp [unsubscribe, offEvent, hl]
    | some ls => simp [unsubscribe, offEvent, hl, lookupListeners_set_self]
  · cases hl : lookupListeners em name with
    | none => simp [unsubscribe, offEvent, hl]
    | some ls =>
      simp only [unsubscribe, offEvent, hl, lookupListeners_set_self,
        filter_bne_idem]
      obtain ⟨l⟩ := em
      simp [setListeners, setEntry_setEntry]
  · intro hne
    cases hl : lookupListeners em name with
    | none => simp [unsubscribe, offEvent, hl]
    | some ls => simp [unsubscribe, offEvent, hl, lookupListeners_set_ne _ _ _ _ hne]

/-- Closed instance of `subscribe_unsubscribe_registry`: unsubscribing
the handler `7` from `"debugLog"` leaves the registrations of the
distinct event name `"other"` unchanged. -/
theorem subscribe_unsubscribe_registry_witness :
    lookupListeners (unsubscribe (EventEmitter.mk [("other", [3])]) "debugLog" 7) "other"
      = lookupListeners (EventEmitter.mk [("other", [3])]) "other" :=
  (subscribe_unsubscribe_registry (EventEmitter.mk [("other", [3])]) "debugLog" "other" 7).2.2.2
    (by decide)

/-! ## Executor lemmas -/

theorem runSteps_append_ok (env : RunEnv) (pre post : List AutomationStep)
    {i : Nat} {cur out : String} {img im : Bool} {w w1 : RunWorld}
    (h : runSteps env pre i cur img w = (w1, Except.ok (out, im))) :
    runSteps env (pre ++ post) i cur img w
      = runSteps env post (i + pre.length) out im w1 := by
  induction pre generalizing i cur img w with
  | nil =>
    simp only [runSteps, Prod.mk.injEq, Except.ok.injEq] at h
    obtain ⟨hw, hc, hi⟩ := h
    subst hw; subst hc; subst hi
    simp
  | cons s t ih =>
    simp only [runSteps] at h ⊢
    cases he : execStep env i s cur img w with
    | mk w2 r =>
      rw [he] at h
      cases r with
      | error m => simp at h
      | ok p =>
        obtain ⟨o, g⟩ := p
        have hx := ih h
        simp only [List.cons_append, runSteps, he, List.length_cons]
        have harith : i + 1 + t.length = i + (t.length + 1) := by omega
        rw [harith] at hx
        exact hx

theorem runSteps_append_err (env : RunEnv) (pre post : List AutomationStep)
    {i : Nat} {cur : String} {img : Bool} {w w1 : RunWorld} {m : String}
    (h : runSteps env pre i cur img w = (w1, Except.error m)) :
    runSteps env (pre ++ post) i cur img w = (w1, Except.error m) := by
  induction pre generalizing i cur img w with
  | nil => simp only [runSteps, Prod.mk.injEq] at h; simp at h
  | cons s t ih =>
    simp only [runSteps] at h ⊢
    cases he : execStep env i s cur img w with
    | mk w2 r =>
      rw [he] at h
      cases r with
      | error mm => exact h
      | ok p => obtain ⟨o, g⟩ := p; exact ih h

/-- Evaluation of one generic (neither vision-integration nor
social-commenter) step whose capability call succeeds. -/
theorem execStep_generic_ok (env : RunEnv) (i : Nat) (step : AutomationStep)
    (a : AIAction) (cur t : String) (w : RunWorld)
    (hf : env.registry.find? (fun x => x.id == step.actionId) = Option.some a)
    (hgv : (a.id == "vision-integration") = false)
    (hgs : (a.id == "social-commenter") = false)
    (happ : env.apiText DEFAULT_AI_MODEL cur a.description = Except.ok t) :
    execStep env i step cur false w =
      (⟨w.logs ++ [stepStartEntry i a cur step.options,
                   apiCallEntry DEFAULT_AI_MODEL cur a.description,
                   apiRespEntry t,
                   stepDoneEntry i (jsTrim t)],
        w.calls ++ [CapCall.text DEFAULT_AI_MODEL cur a.description]⟩,
       Except.ok (jsTrim t, (jsTrim t).startsWith imageMarker)) := by
  simp [execStep, hf, execBody, hgv, hgs, generateTextContent, happ,
    pushLog, pushCall]

/-- Evaluation of one generic step whose capability call throws. -/
theorem execStep_generic_err (env : RunEnv) (i : Nat) (step : AutomationStep)
    (a : AIAction) (cur m : String) (w : RunWorld)
    (hf : env.registry.find? (fun x => x.id == step.actionId) = Option.some a)
    (hgv : (a.id == "vision-integration") = false)
    (hgs : (a.id == "social-commenter") = false)
    (happ : env.apiText DEFAULT_AI_MODEL cur a.description = Except.error m) :
    execStep env i step cur false w =
      (⟨w.logs ++ [stepStartEntry i a cur step.options,
                   apiCallEntry DEFAULT_AI_MODEL cur a.description,
                   apiErrEntry m],
        w.calls ++ [CapCall.text DEFAULT_AI_MODEL cur a.description]⟩,
       Except.error ("Failed to generate content: " ++ m)) := by
  simp [execStep, hf, execBody, hgv, hgs, generateTextContent, happ,
    pushLog, pushCall]

/-- C2 (amended): the loop is fail-fast — when the steps before index
`k` succeed and the step at index `k` fails, the run's final world and
error are those produced at step `k`, independently of the steps after
`k` (so no capability of any later step is ever invoked), and a loop
error always surfaces as a `failed` run outcome with the terminal
failure log.  (The error text identifies step `k` only in the
unresolved-action case; see the counterexample for capability throws.) -/
theorem run_fail_fast (env : RunEnv) (pre post : List AutomationStep)
    (failStep : AutomationStep) (inp cur : String) (im : Bool)
    (w w1 w2 : RunWorld) (m : String)
    (h1 : runSteps env pre 0 inp false w = (w1, Except.ok (cur, im)))
    (h2 : execStep env pre.length failStep cur im w1 = (w2, Except.error m)) :
    runSteps env (pre ++ failStep :: post) 0 inp false w = (w2, Except.error m) ∧
    (∀ (steps : List AutomationStep) (wa wb : RunWorld) (mm : String),
      runSteps env steps 0 inp false (pushLog wa (runStartEntry env inp steps))
          = (wb, Except.error mm) →
      runAutomation env true inp steps wa
          = (pushLog wb (runFailedEntry env mm), RunOutcome.failed mm)) := by
  constructor
  · rw [runSteps_append_ok env pre (failStep :: post) h1]
    simp only [Nat.zero_add, runSteps, h2]
  · intro steps wa wb mm h
    simp [runAutomation, h]

/-- Closed instance of `run_fail_fast`: a single-step pipeline whose
step does not resolve fails with that step's error however many steps
follow it, with no capability invoked. -/
theorem run_fail_fast_witness :
    runSteps (RunEnv.mk [] (fun _ _ _ => Except.error "unused")
        (fun _ _ _ _ => Except.error "unused") "demo")
      ([] ++ AutomationStep.mk "unknown-action" Option.none
        :: [AutomationStep.mk "act-a" Option.none]) 0 "hi" false (RunWorld.mk [] [])
      = (RunWorld.mk [] [], Except.error (invalidActionMsg "unknown-action" 0)) :=
  (run_fail_fast
    (RunEnv.mk [] (fun _ _ _ => Except.error "unused")
      (fun _ _ _ _ => Except.error "unused") "demo")
    [] [AutomationStep.mk "act-a" Option.none]
    (AutomationStep.mk "unknown-action" Option.none)
    "hi" "hi" false (RunWorld.mk [] []) (RunWorld.mk [] []) (RunWorld.mk [] [])
    (invalidActionMsg "unknown-action" 0) rfl rfl).1

/-- C2 counterexample: the claim says the error identifies the failing
step, but a capability throw at step index 0 (first run, one step) and
the same throw at step index 1 (second run, two steps: its call trace
shows step 1 succeeded and step 2 was reached) surface the identical
error `Failed to generate content: timeout`, which carries no step
identity. -/
theorem error_lacks_step_identity_cex :
    (runAutomation envTimeoutAt0 true "hi" [stepA] (RunWorld.mk [] [])).2
        = RunOutcome.failed "Failed to generate content: timeout" ∧
    (runAutomation envTimeoutAt0 true "hi" [stepA] (RunWorld.mk [] [])).1.calls
        = [CapCall.text DEFAULT_AI_MODEL "hi" "desc A"] ∧
    (runAutomation envTimeoutAt1 true "hi" [stepA, stepB] (RunWorld.mk [] [])).2
        = RunOutcome.failed "Failed to generate content: timeout" ∧
    (runAutomation envTimeoutAt1 true "hi" [stepA, stepB] (RunWorld.mk [] [])).1.calls
        = [CapCall.text DEFAULT_AI_MODEL "hi" "desc A",
           CapCall.text DEFAULT_AI_MODEL "mid" "desc B"] := by
  refine ⟨rfl, rfl, rfl, rfl⟩

/-- C7: when the first step's action id does not resolve in the
registry, the run fails with `Invalid action ID: <id> at step 1` (the
failing step — loop index 0 — rendered 1-based, together with the
offending id), zero capability invocations occur, and the only log
entries are the run-start and terminal-failure entries. -/
theorem unknown_action_rejects (env : RunEnv) (inp : String)
    (badStep : AutomationStep) (rest : List AutomationStep) (w : RunWorld)
    (hfind : env.registry.find? (fun a => a.id == badStep.actionId) = Option.none) :
    runAutomation env true inp (badStep :: rest) w =
      (⟨w.logs ++ [runStartEntry env inp (badStep :: rest),
                   runFailedEntry env (invalidActionMsg badStep.actionId 0)],
        w.calls⟩,
       RunOutcome.failed (invalidActionMsg badStep.actionId 0)) ∧
    invalidActionMsg badStep.actionId 0
      = "Invalid action ID: " ++ badStep.actionId ++ " at step 1" := by
  constructor
  · simp [runAutomation, runSteps, execStep, hfind, pushLog]
  · have h1 : (" at step " ++ toString (0 + 1) : String) = " at step 1" := by decide
    simp only [invalidActionMsg, String.append_assoc, h1]

/-- Closed instance of `unknown_action_rejects`: the single-step
pipeline `["unknown-action"]` rejects with the step-0 unknown-action
error and an empty capability trace. -/
theorem unknown_action_rejects_witness :
    runAutomation
        (RunEnv.mk [] (fun _ _ _ => Except.error "unused") apiVisionUnused "demo")
        true "any input" [AutomationStep.mk "unknown-action" Option.none]
        (RunWorld.mk [] []) =
      (⟨[runStartEntry
            (RunEnv.mk [] (fun _ _ _ => Except.error "unused") apiVisionUnused "demo")
            "any input" [AutomationStep.mk "unknown-action" Option.none],
         runFailedEntry
            (RunEnv.mk [] (fun _ _ _ => Except.error "unused") apiVisionUnused "demo")
            (invalidActionMsg "unknown-action" 0)],
        []⟩,
       RunOutcome.failed (invalidActionMsg "unknown-action" 0)) := by
  simpa using (unknown_action_rejects
    (RunEnv.mk [] (fun _ _ _ => Except.error "unused") apiVisionUnused "demo")
    "any input" (AutomationStep.mk "unknown-action" Option.none) []
    (RunWorld.mk [] []) rfl).1

/-- Full evaluation of a successful two-step pipeline of generic text
actions: the exact log trace and capability trace. -/
theorem two_generic_steps_world (env : RunEnv) (a1 a2 : AIAction)
    (s1 s2 : AutomationStep) (f : String → String → String → String)
    (inp : String) (w : RunWorld)
    (hf1 : env.registry.find? (fun a => a.id == s1.actionId) = Option.some a1)
    (hf2 : env.registry.find? (fun a => a.id == s2.actionId) = Option.some a2)
    (hg1v : (a1.id == "vision-integration") = false)
    (hg1s : (a1.id == "social-commenter") = false)
    (hg2v : (a2.id == "vision-integration") = false)
    (hg2s : (a2.id == "social-commenter") = false)
    (happi : ∀ mo p sy, env.apiText mo p sy = Except.ok (f mo p sy))
    (hmark : (jsTrim (f DEFAULT_AI_MODEL inp a1.description)).startsWith imageMarker
        = false) :
    runAutomation env true inp [s1, s2] w =
      (⟨w.logs ++
          [runStartEntry env inp [s1, s2],
           stepStartEntry 0 a1 inp s1.options,
           apiCallEntry DEFAULT_AI_MODEL inp a1.description,
           apiRespEntry (f DEFAULT_AI_MODEL inp a1.description),
           stepDoneEntry 0 (jsTrim (f DEFAULT_AI_MODEL inp a1.description)),
           stepStartEntry 1 a2 (jsTrim (f DEFAULT_AI_MODEL inp a1.description)) s2.options,
           apiCallEntry DEFAULT_AI_MODEL (jsTrim (f DEFAULT_AI_MODEL inp a1.description))
             a2.description,
           apiRespEntry (f DEFAULT_AI_MODEL (jsTrim (f DEFAULT_AI_MODEL inp a1.description))
             a2.description),
           stepDoneEntry 1 (jsTrim (f DEFAULT_AI_MODEL
             (jsTrim (f DEFAULT_AI_MODEL inp a1.description)) a2.description)),
           runSuccessEntry env (jsTrim (f DEFAULT_AI_MODEL
             (jsTrim (f DEFAULT_AI_MODEL inp a1.description)) a2.description))],
        w.calls ++
          [CapCall.text DEFAULT_AI_MODEL inp a1.description,
           CapCall.text DEFAULT_AI_MODEL (jsTrim (f DEFAULT_AI_MODEL inp a1.description))
             a2.description]⟩,
       RunOutcome.completed (jsTrim (f DEFAULT_AI_MODEL
         (jsTrim (f DEFAULT_AI_MODEL inp a1.description)) a2.description))) := by
  have e1 := execStep_generic_ok env 0 s1 a1 inp (f DEFAULT_AI_MODEL inp a1.description)
    (pushLog w (runStartEntry env inp [s1, s2])) hf1 hg1v hg1s (happi _ _ _)
  simp only [pushLog, pushCall] at e1
  have e2 := fun (W : RunWorld) =>
    execStep_generic_ok env 1 s2 a2 (jsTrim (f DEFAULT_AI_MODEL inp a1.description))
      (f DEFAULT_AI_MODEL (jsTrim (f DEFAULT_AI_MODEL inp a1.description)) a2.description)
      W hf2 hg2v hg2s (happi _ _ _)
  simp only [runAutomation, runSteps, pushLog, pushCall, e1, hmark, e2]
  simp [List.append_assoc]

/-- C3 (amended): in a successful two-step run of generic actions the
executor emits the step-start and step-completion log entries at level
`info` — not `automation_step`, which is never emitted — in the exact
order: run start, then per step a start entry, the capability
`api_call`/`api_response` entries, and a completion entry, then exactly
one terminal success entry; in particular 2 step-start logs, 2
step-completion logs, 1 terminal success log. -/
theorem step_logs_two_step_run (env : RunEnv) (a1 a2 : AIAction)
    (s1 s2 : AutomationStep) (f : String → String → String → String)
    (inp : String) (w : RunWorld)
    (hf1 : env.registry.find? (fun a => a.id == s1.actionId) = Option.some a1)
    (hf2 : env.registry.find? (fun a => a.id == s2.actionId) = Option.some a2)
    (hg1v : (a1.id == "vision-integration") = false)
    (hg1s : (a1.id == "social-commenter") = false)
    (hg2v : (a2.id == "vision-integration") = false)
    (hg2s : (a2.id == "social-commenter") = false)
    (happi : ∀ mo p sy, env.apiText mo p sy = Except.ok (f mo p sy))
    (hmark : (jsTrim (f DEFAULT_AI_MODEL inp a1.description)).startsWith imageMarker
        = false) :
    (runAutomation env true inp [s1, s2] w).1.logs =
      w.logs ++
        [runStartEntry env inp [s1, s2],
         stepStartEntry 0 a1 inp s1.options,
         apiCallEntry DEFAULT_AI_MODEL inp a1.description,
         apiRespEntry (f DEFAULT_AI_MODEL inp a1.description),
         stepDoneEntry 0 (jsTrim (f DEFAULT_AI_MODEL inp a1.description)),
         stepStartEntry 1 a2 (jsTrim (f DEFAULT_AI_MODEL inp a1.description)) s2.options,
         apiCallEntry DEFAULT_AI_MODEL (jsTrim (f DEFAULT_AI_MODEL inp a1.description))
           a2.description,
         apiRespEntry (f DEFAULT_AI_MODEL (jsTrim (f DEFAULT_AI_MODEL inp a1.description))
           a2.description),
         stepDoneEntry 1 (jsTrim (f DEFAULT_AI_MODEL
           (jsTrim (f DEFAULT_AI_MODEL inp a1.description)) a2.description)),
         runSuccessEntry env (jsTrim (f DEFAULT_AI_MODEL
           (jsTrim (f DEFAULT_AI_MODEL inp a1.description)) a2.description))] ∧
    List.countP (fun e => e.level == DebugLogLevel.automation_step)
        (runAutomation env true inp [s1, s2] w).1.logs =
      List.countP (fun e => e.level == DebugLogLevel.automation_step) w.logs ∧
    (stepStartEntry 0 a1 inp s1.options).level = DebugLogLevel.info ∧
    (stepDoneEntry 0 (jsTrim (f DEFAULT_AI_MODEL inp a1.description))).level
        = DebugLogLevel.info := by
  have hw := two_generic_steps_world env a1 a2 s1 s2 f inp w hf1 hf2
    hg1v hg1s hg2v hg2s happi hmark
  rw [hw]
  refine ⟨rfl, ?_, rfl, rfl⟩
  simp [List.countP_append, stepStartEntry, stepDoneEntry, runStartEntry,
    runSuccessEntry, apiCallEntry, apiRespEntry, List.countP_cons]

/-- Closed instance of `step_logs_two_step_run` on the `envOk`
scenario. -/
theorem step_logs_two_step_run_witness :
    (runAutomation envOk true "hi" [stepA, stepB] (RunWorld.mk [] [])).1.logs =
      [runStartEntry envOk "hi" [stepA, stepB],
       stepStartEntry 0 actA "hi" Option.none,
       apiCallEntry DEFAULT_AI_MODEL "hi" "desc A",
       apiRespEntry "out",
       stepDoneEntry 0 "out",
       stepStartEntry 1 actB "out" Option.none,
       apiCallEntry DEFAULT_AI_MODEL "out" "desc B",
       apiRespEntry "out",
       stepDoneEntry 1 "out",
       runSuccessEntry envOk "out"] := by
  have h := (step_logs_two_step_run envOk actA actB stepA stepB
    (fun _ _ _ => "out") "hi" (RunWorld.mk [] [])
    rfl rfl rfl rfl rfl rfl (fun _ _ _ => rfl) rfl).1
  simpa using h

/-- C3 counterexample: a successful two-step run emits **zero** log
entries at level `automation_step` (the step start/completion entries
the claim counts are emitted at level `info`). -/
theorem step_logs_level_cex :
    (runAutomation envOk true "hi" [stepA, stepB] (RunWorld.mk [] [])).2
        = RunOutcome.completed "out" ∧
    List.filter (fun e => e.level == DebugLogLevel.automation_step)
        (runAutomation envOk true "hi" [stepA, stepB] (RunWorld.mk [] [])).1.logs
        = [] := by
  refine ⟨rfl, rfl⟩

/-- In a successful step, the new payload kind is exactly the
image-marker sniff of the step's output. -/
theorem execStep_ok_kind (env : RunEnv) (i : Nat) (st : AutomationStep)
    (cur : String) (img : Bool) (w w1 : RunWorld) (out : String) (im2 : Bool)
    (h : execStep env i st cur img w = (w1, Except.ok (out, im2))) :
    im2 = out.startsWith imageMarker := by
  cases hf : env.registry.find? (fun a => a.id == st.actionId) with
  | none => simp only [execStep, hf] at h; simp at h
  | some a =>
    rcases hb : execBody env st a cur img (pushLog w (stepStartEntry i a cur st.options))
      with ⟨w2, r⟩
    cases r with
    | error m => simp only [execStep, hf, hb] at h; simp at h
    | ok so =>
      simp only [execStep, hf, hb, Prod.mk.injEq, Except.ok.injEq] at h
      obtain ⟨h1, h2, h3⟩ := h
      subst h2
      exact h3.symm

/-- C4 (amended): in a two-step pipeline of generic actions the payload
handed to step 2's capability is exactly the **whitespace-trimmed**
output of step 1's capability (the executor applies `.trim()` to every
step output before threading it), and the recomputed payload kind is
exactly the image-marker sniff of the step's output (a string beginning
with `data:image/` is reclassified as image, anything else as text). -/
theorem payload_threading (env : RunEnv) (a1 a2 : AIAction)
    (s1 s2 : AutomationStep) (f : String → String → String → String)
    (inp : String) (w : RunWorld)
    (hf1 : env.registry.find? (fun a => a.id == s1.actionId) = Option.some a1)
    (hf2 : env.registry.find? (fun a => a.id == s2.actionId) = Option.some a2)
    (hg1v : (a1.id == "vision-integration") = false)
    (hg1s : (a1.id == "social-commenter") = false)
    (hg2v : (a2.id == "vision-integration") = false)
    (hg2s : (a2.id == "social-commenter") = false)
    (happi : ∀ mo p sy, env.apiText mo p sy = Except.ok (f mo p sy))
    (hmark : (jsTrim (f DEFAULT_AI_MODEL inp a1.description)).startsWith imageMarker
        = false) :
    (runSteps env [s1, s2] 0 inp false w).1.calls
        = w.calls ++
          [CapCall.text DEFAULT_AI_MODEL inp a1.description,
           CapCall.text DEFAULT_AI_MODEL (jsTrim (f DEFAULT_AI_MODEL inp a1.description))
             a2.description] ∧
    (∀ (i : Nat) (st : AutomationStep) (cur : String) (img : Bool)
        (w0 w1 : RunWorld) (out : String) (im2 : Bool),
      execStep env i st cur img w0 = (w1, Except.ok (out, im2)) →
      im2 = out.startsWith imageMarker) := by
  constructor
  · have e1 := execStep_generic_ok env 0 s1 a1 inp (f DEFAULT_AI_MODEL inp a1.description)
      w hf1 hg1v hg1s (happi _ _ _)
    have e2 := fun (W : RunWorld) =>
      execStep_generic_ok env 1 s2 a2 (jsTrim (f DEFAULT_AI_MODEL inp a1.description))
        (f DEFAULT_AI_MODEL (jsTrim (f DEFAULT_AI_MODEL inp a1.description)) a2.description)
        W hf2 hg2v hg2s (happi _ _ _)
    simp only [runSteps, e1, hmark, e2]
    simp [List.append_assoc]
  · intro i st cur img w0 w1 out im2 h
    exact execStep_ok_kind env i st cur img w0 w1 out im2 h

/-- Closed instance of `payload_threading` on the `envPad` scenario:
step 1's capability yields `" x "` and step 2's capability is invoked
with the trimmed `"x"`. -/
theorem payload_threading_witness :
    (runSteps envPad [stepA, stepB] 0 "hi" false (RunWorld.mk [] [])).1.calls
        = [CapCall.text DEFAULT_AI_MODEL "hi" "desc A",
           CapCall.text DEFAULT_AI_MODEL "x" "desc B"] := by
  simpa using (payload_threading envPad actA actB stepA stepB
    (fun _ _ _ => " x ") "hi" (RunWorld.mk [] [])
    rfl rfl rfl rfl rfl rfl (fun _ _ _ => rfl) rfl).1

/-- C4 counterexample: in the `envPad` run, step 1's capability output
is `" x "` (recorded in the `api_response` entry at log position 3), but
step 2's capability receives `"x"` — the executor transformed the
threaded payload (trimming), so the input to step 2 is **not** exactly
step 1's output. -/
theorem payload_threading_cex :
    List.get? (runAutomation envPad true "hi" [stepA, stepB] (RunWorld.mk [] [])).1.logs 3
        = Option.some (apiRespEntry " x ") ∧
    List.get? (runAutomation envPad true "hi" [stepA, stepB] (RunWorld.mk [] [])).1.calls 1
        = Option.some (CapCall.text DEFAULT_AI_MODEL "x" "desc B") ∧
    (" x " : String) ≠ "x" := by
  refine ⟨rfl, rfl, by decide⟩

/-- C5: the step-completion preview is the output itself when the output
has at most 100 characters, and exactly the first 100 characters
followed by the ellipsis marker `...` otherwise; the step-completion
log entry records exactly this preview in its details. -/
theorem step_preview_truncation (s : String) :
    (s.length ≤ 100 → stepPreview s = s) ∧
    (100 < s.length →
      stepPreview s = s.take 100 ++ "..." ∧ (s.take 100).length = 100) ∧
    (∀ i, (stepDoneEntry i s).details = LogDetails.stepDone (stepPreview s)) := by
  refine ⟨?_, ?_, fun i => rfl⟩
  · intro h
    have hnot : ¬ (s.length > 100) := by omega
    have ht : s.take 100 = s := by
      rw [String.take_eq]
      cases s with
      | mk data => exact congrArg String.mk (List.take_of_length_le h)
    simp [stepPreview, hnot, ht, String.append_empty]
  · intro h
    refine ⟨by simp [stepPreview, h], ?_⟩
    rw [String.take_eq]
    cases s with
    | mk data =>
      show (List.take 100 data).length = 100
      rw [List.length_take]
      exact Nat.min_eq_left (Nat.le_of_lt h)

set_option maxRecDepth 8192 in
/-- Closed instance of `step_preview_truncation` at a 3-character output
and at a 180-character output. -/
theorem step_preview_truncation_witness :
    stepPreview "abc" = "abc" ∧
    (stepPreview (String.mk (List.replicate 180 'a'))
        = (String.mk (List.replicate 180 'a')).take 100 ++ "..." ∧
      ((String.mk (List.replicate 180 'a')).take 100).length = 100) :=
  ⟨(step_preview_truncation "abc").1 (by decide),
   (step_preview_truncation (String.mk (List.replicate 180 'a'))).2.1 (by decide)⟩

/-- C6: with a non-empty step list and a blank (whitespace-only) initial
input, `handleRunAutomation` stops with the missing-input validation
message; with a non-blank input and an empty step list it stops with the
empty-pipeline validation message — in both cases the world (hence the
capability trace) is untouched and `runAutomation` is never entered. -/
theorem validation_rejections (env : RunEnv) (k : Bool) (inp : String)
    (steps : List AutomationStep) (w : RunWorld) :
    (steps ≠ [] → jsTrim inp = "" →
      handleRunAutomation env k inp steps w
        = (w, HandleOutcome.validationError missingInputMsg)) ∧
    (jsTrim inp ≠ "" →
      handleRunAutomation env k inp [] w
        = (w, HandleOutcome.validationError emptyPipelineMsg)) := by
  constructor
  · intro hs ht
    have hlen : (steps.length == 0) = false := by
      cases steps with
      | nil => exact absurd rfl hs
      | cons a t => simp
    simp [handleRunAutomation, hlen, ht]
  · intro ht
    simp [handleRunAutomation]

/-- Closed instance of `validation_rejections`: a whitespace-only input
with one step, and the input `"x"` with zero steps. -/
theorem validation_rejections_witness :
    handleRunAutomation envOk true "   " [stepA] (RunWorld.mk [] [])
        = (RunWorld.mk [] [], HandleOutcome.validationError missingInputMsg) ∧
    handleRunAutomation envOk true "x" [] (RunWorld.mk [] [])
        = (RunWorld.mk [] [], HandleOutcome.validationError emptyPipelineMsg) :=
  ⟨(validation_rejections envOk true "   " [stepA] (RunWorld.mk [] [])).1
      (by decide) (by decide),
   (validation_rejections envOk true "x" [] (RunWorld.mk [] [])).2 (by decide)⟩

/-- C8 (amended): a kind mismatch fails the step (and with
`run_fail_fast`, the whole run) — a generic text action invoked while
the payload kind is image fails with the fixed message naming the
action, and the vision action invoked on a payload that does not start
with the image marker fails with its fixed message; neither message
carries the step index or an expected/actual kind pair (see the
counterexample). -/
theorem type_mismatch_aborts (env : RunEnv) (i : Nat) (step : AutomationStep)
    (a : AIAction) (cur : String) (img : Bool) (w : RunWorld)
    (hf : env.registry.find? (fun x => x.id == step.actionId) = Option.some a) :
    ((a.id == "vision-integration") = false → (a.id == "social-commenter") = false →
      execStep env i step cur true w
        = (pushLog w (stepStartEntry i a cur step.options),
           Except.error (textMismatchMsg a.name))) ∧
    ((a.id == "vision-integration") = true → (cur.startsWith imageMarker) = false →
      execStep env i step cur img w
        = (pushLog w (stepStartEntry i a cur step.options),
           Except.error visionMismatchMsg)) := by
  constructor
  · intro hgv hgs
    simp [execStep, hf, execBody, hgv, hgs]
  · intro hv hm
    simp [execStep, hf, execBody, hv, hm]

/-- Closed instance of `type_mismatch_aborts`: the generic action `actA`
invoked on an image payload fails with the action-naming message. -/
theorem type_mismatch_aborts_witness :
    execStep envVision 0 stepA "x" true (RunWorld.mk [] [])
      = (pushLog (RunWorld.mk [] []) (stepStartEntry 0 actA "x" Option.none),
         Except.error (textMismatchMsg "Action A")) := by
  simpa using (type_mismatch_aborts envVision 0 stepA actA "x" false
    (RunWorld.mk [] []) rfl).1 rfl rfl

/-- C8 counterexample: the identical vision mismatch message is produced
when the mismatch occurs at step index 0 (first run) and at step index 1
(second run, whose call trace shows step 1 ran) — so the error content
includes neither the step index nor an expected/actual kind pair. -/
theorem type_mismatch_message_cex :
    (runAutomation envVision true "hello" [stepV] (RunWorld.mk [] [])).2
        = RunOutcome.failed visionMismatchMsg ∧
    (runAutomation envVision true "hi" [stepA, stepV] (RunWorld.mk [] [])).2
        = RunOutcome.failed visionMismatchMsg ∧
    (runAutomation envVision true "hi" [stepA, stepV] (RunWorld.mk [] [])).1.calls
        = [CapCall.text DEFAULT_AI_MODEL "hi" "desc A"] := by
  refine ⟨rfl, rfl, rfl⟩

/-- `generateTextContent` records exactly one capability call. -/
theorem generateTextContent_calls (env : RunEnv) (model prompt sysInstr : String)
    (w : RunWorld) :
    (generateTextContent env model prompt sysInstr w).1.calls
      = w.calls ++ [CapCall.text model prompt sysInstr] := by
  unfold generateTextContent
  cases env.apiText model prompt sysInstr <;> simp [pushLog, pushCall]

/-- `generateImagesVision` records exactly one capability call. -/
theorem generateImagesVision_calls (env : RunEnv) (mimeType base64Data : String)
    (w : RunWorld) :
    (generateImagesVision env mimeType base64Data w).1.calls
      = w.calls ++ [CapCall.vision VISION_MODEL "Describe this image in detail."
          mimeType base64Data] := by
  unfold generateImagesVision
  cases env.apiVision VISION_MODEL "Describe this image in detail." mimeType base64Data with
  | ok r => cases r <;> simp [pushCall]
  | error m => simp [pushCall]

/-- The step-body dispatch appends zero or more capability calls — it
never rewrites the calls already recorded. -/
theorem execBody_calls_delta (env : RunEnv) (st : AutomationStep) (a : AIAction)
    (cur : String) (img : Bool) (w : RunWorld) :
    ∃ d, (execBody env st a cur img w).1.calls = w.calls ++ d := by
  cases hv : (a.id == "vision-integration") with
  | true =>
    cases hm : cur.startsWith imageMarker with
    | false => exact ⟨[], by simp [execBody, hv, hm]⟩
    | true =>
      rcases hg : generateImagesVision env (visionMime cur) (visionB64 cur) w with ⟨w2, r⟩
      have hc := generateImagesVision_calls env (visionMime cur) (visionB64 cur) w
      rw [hg] at hc
      refine ⟨[CapCall.vision VISION_MODEL "Describe this image in detail."
        (visionMime cur) (visionB64 cur)], ?_⟩
      cases r with
      | error m => simpa [execBody, hv, hm, hg] using hc
      | ok ro => cases ro <;> simpa [execBody, hv, hm, hg] using hc
  | false =>
    cases hs : (a.id == "social-commenter") with
    | true =>
      rcases hg : generateTextContent env DEFAULT_AI_MODEL (socialPrompt st cur)
          a.description w with ⟨w2, r⟩
      have hc := generateTextContent_calls env DEFAULT_AI_MODEL (socialPrompt st cur)
        a.description w
      rw [hg] at hc
      refine ⟨[CapCall.text DEFAULT_AI_MODEL (socialPrompt st cur) a.description], ?_⟩
      cases r with
      | error m => simpa [execBody, hv, hs, hg] using hc
      | ok t => simpa [execBody, hv, hs, hg] using hc
    | false =>
      cases himg : img with
      | true => exact ⟨[], by simp [execBody, hv, hs]⟩
      | false =>
        rcases hg : generateTextContent env DEFAULT_AI_MODEL cur a.description w
          with ⟨w2, r⟩
        have hc := generateTextContent_calls env DEFAULT_AI_MODEL cur a.description w
        rw [hg] at hc
        refine ⟨[CapCall.text DEFAULT_AI_MODEL cur a.description], ?_⟩
        cases r with
        | error m => simpa [execBody, hv, hs, hg] using hc
        | ok t => simpa [execBody, hv, hs, hg] using hc

/-- A step appends zero or more capability calls. -/
theorem execStep_calls_delta (env : RunEnv) (i : Nat) (st : AutomationStep)
    (cur : String) (img : Bool) (w : RunWorld) :
    ∃ d, (execStep env i st cur img w).1.calls = w.calls ++ d := by
  cases hf : env.registry.find? (fun a => a.id == st.actionId) with
  | none => exact ⟨[], by simp [execStep, hf]⟩
  | some a =>
    obtain ⟨d, hd⟩ := execBody_calls_delta env st a cur img
      (pushLog w (stepStartEntry i a cur st.options))
    rcases hb : execBody env st a cur img (pushLog w (stepStartEntry i a cur st.options))
      with ⟨w2, r⟩
    rw [hb] at hd
    refine ⟨d, ?_⟩
    cases r with
    | error m =>
      simp only [execStep, hf, hb]
      simpa [pushLog] using hd
    | ok so =>
      simp only [execStep, hf, hb]
      simpa [pushLog] using hd

/-- The loop appends zero or more capability calls. -/
theorem runSteps_calls_delta (env : RunEnv) (steps : List AutomationStep) :
    ∀ (i : Nat) (cur : String) (img : Bool) (w : RunWorld),
      ∃ d, (runSteps env steps i cur img w).1.calls = w.calls ++ d := by
  induction steps with
  | nil => intro i cur img w; exact ⟨[], by simp [runSteps]⟩
  | cons s t ih =>
    intro i cur img w
    obtain ⟨d1, hd1⟩ := execStep_calls_delta env i s cur img w
    rcases he : execStep env i s cur img w with ⟨w2, r⟩
    rw [he] at hd1
    cases r with
    | error m => exact ⟨d1, by simp [runSteps, he]; exact hd1⟩
    | ok p =>
      obtain ⟨o, g⟩ := p
      obtain ⟨d2, hd2⟩ := ih (i + 1) o g w2
      refine ⟨d1 ++ d2, ?_⟩
      simp only [runSteps, he]
      rw [hd2, hd1, List.append_assoc]

/-- C9 counterexample: with the same handler registered twice for
`"debugLog"`, one invocation of the unsubscribe closure removes **both**
registrations (the registry drops from `[7, 7]` to `[]`), not exactly
the one registration the claim asserts. -/
theorem unsubscribe_removes_duplicates_cex :
    lookupListeners (onEvent (onEvent (EventEmitter.mk []) "debugLog" 7) "debugLog" 7)
        "debugLog" = Option.some [7, 7] ∧
    lookupListeners
        (unsubscribe (onEvent (onEvent (EventEmitter.mk []) "debugLog" 7) "debugLog" 7)
          "debugLog" 7) "debugLog" = Option.some [] := by
  constructor
  · rfl
  · rfl

/-- C10: the loop starts with `isInputImage = false` whatever the
initial input is, so a generic (text-expecting) capability at step 1 is
always invoked on the initial input — even an input that is itself a
well-formed `data:image/` URL never triggers the image-input rejection
at step 1 — and the payload kind can become image only through the
marker sniff of some step's output. -/
theorem initial_payload_kind_text (env : RunEnv) (a1 : AIAction)
    (s1 : AutomationStep) (rest : List AutomationStep) (inp : String) (w : RunWorld)
    (hf : env.registry.find? (fun a => a.id == s1.actionId) = Option.some a1)
    (hg1 : (a1.id == "vision-integration") = false)
    (hg2 : (a1.id == "social-commenter") = false) :
    ((execStep env 0 s1 inp false w).1.calls
        = w.calls ++ [CapCall.text DEFAULT_AI_MODEL inp a1.description]) ∧
    (∃ restCalls, (runAutomation env true inp (s1 :: rest) w).1.calls
        = w.calls ++ CapCall.text DEFAULT_AI_MODEL inp a1.description :: restCalls) ∧
    (∀ (i : Nat) (st : AutomationStep) (cur : String) (img : Bool)
        (w0 w1 : RunWorld) (out : String) (im2 : Bool),
      execStep env i st cur img w0 = (w1, Except.ok (out, im2)) →
      im2 = out.startsWith imageMarker) := by
  have hstep : ∀ (W : RunWorld), (execStep env 0 s1 inp false W).1.calls
      = W.calls ++ [CapCall.text DEFAULT_AI_MODEL inp a1.description] := by
    intro W
    cases happ : env.apiText DEFAULT_AI_MODEL inp a1.description with
    | ok t => rw [execStep_generic_ok env 0 s1 a1 inp t W hf hg1 hg2 happ]
    | error m => rw [execStep_generic_err env 0 s1 a1 inp m W hf hg1 hg2 happ]
  refine ⟨hstep w, ?_, ?_⟩
  · rcases he : execStep env 0 s1 inp false (pushLog w (runStartEntry env inp (s1 :: rest)))
      with ⟨w2, r⟩
    have hc : w2.calls = w.calls ++ [CapCall.text DEFAULT_AI_MODEL inp a1.description] := by
      have := hstep (pushLog w (runStartEntry env inp (s1 :: rest)))
      rw [he] at this
      simpa [pushLog] using this
    simp only [pushLog] at he
    cases r with
    | error m =>
      refine ⟨[], ?_⟩
      simp [runAutomation, runSteps, pushLog, he, hc]
    | ok p =>
      obtain ⟨o, g⟩ := p
      obtain ⟨d2, hd2⟩ := runSteps_calls_delta env rest 1 o g w2
      rcases hr : runSteps env rest 1 o g w2 with ⟨w3, r3⟩
      rw [hr] at hd2
      refine ⟨d2, ?_⟩
      have hw3 : w3.calls = w2.calls ++ d2 := hd2
      cases r3 with
      | error m =>
        simp [runAutomation, runSteps, pushLog, he, hr, hw3, hc, List.append_assoc]
      | ok p3 =>
        obtain ⟨o3, g3⟩ := p3
        simp [runAutomation, runSteps, pushLog, he, hr, hw3, hc, List.append_assoc]
  · intro i st cur img w0 w1 out im2 h
    exact execStep_ok_kind env i st cur img w0 w1 out im2 h

/-- Closed instance of `initial_payload_kind_text`: an initial input
that is a well-formed image data URL is still handed to the generic
step-1 capability as text input — no mismatch rejection occurs. -/
theorem initial_payload_kind_text_witness :
    (execStep envOk 0 stepA "data:image/png;base64,AAAA" false (RunWorld.mk [] [])).1.calls
      = [CapCall.text DEFAULT_AI_MODEL "data:image/png;base64,AAAA" "desc A"] := by
  simpa using (initial_payload_kind_text envOk actA stepA [] "data:image/png;base64,AAAA"
    (RunWorld.mk [] []) rfl rfl rfl).1

end Neurivox
